import Mathlib

/-!
Verification of the Firestore REST client of SMSSUB-WEBSITE
(source file: the firebase REST module for Cloudflare Workers).

The development shallowly embeds the client:

* JS native values are the inductive `NVal`.  JavaScript has a single
  number type; it is modelled by the rationals `ℚ`, idealising binary64
  to exact values (no rounding, NaN or infinities).  The number-sensitive
  host conversions the codec relies on are modelled faithfully on those
  exact values: `Number.isInteger` is `q.den = 1`, `String(value)` on an
  integral number prints the decimal numeral below `10 ^ 21` and
  ECMAScript exponential notation from `10 ^ 21` on (`String(1e21) =
  "1e+21"`), and `parseInt` reads an optional sign plus the longest
  leading digit run.  `NVal.vundef` models `undefined`, and
  `NVal.vother s` models any non-JSON value (function, symbol, ...)
  identified by its `String(...)` conversion, which is all the encoder
  ever observes of such a value.
* Firestore wire values are the inductive `FVal`, one constructor per
  wire tag.  `integerValue` carries its decimal string exactly as on the
  wire; `FVal.unknownTag` stands for a tag outside the recognised set.
* The HTTP world is a function `Net : Nat → FetchOutcome` giving the
  outcome of the n-th `fetch` performed by the process, and all stateful
  operations are functions `FireState → Except JsError α × FireState`
  (`FireM`), where `FireState` holds the module-level token cache and the
  log of issued requests.  A thrown JS exception is `Except.error`; the
  request log survives an exception, as issued HTTP requests do.
* `Date.now()` is an explicit `now : Int` parameter (milliseconds).
-/

namespace FirebaseRest

/-! ### Decimal numerals and the JS number-to-string conversion

`String(value)` on an integral JS number prints the decimal numeral only
below `10 ^ 21`; from `10 ^ 21` on, ECMAScript ToString switches to
exponential notation (`String(1e21) = "1e+21"`), and `parseInt` — which
reads an optional sign followed by the longest leading run of decimal
digits — then recovers only the mantissa's integer part
(`parseInt("1e+21") = 1`).  `natToJsString` / `intToJsString` below model
that conversion on the idealised exact values, and `parseIntStr` models
`parseInt`; everything is written fuel-style so that it reduces. -/

/-- Least-significant-first decimal digits of `n`; `fuel` bounds the recursion
and any `fuel ≥ n` is exact. -/
def natDigitsRev : Nat → Nat → List Nat
  | 0, _ => []
  | fuel + 1, n => if n = 0 then [] else n % 10 :: natDigitsRev fuel (n / 10)

/-- Value of a least-significant-first digit list. -/
def ofDigitsRev : List Nat → Nat
  | [] => 0
  | d :: ds => d + 10 * ofDigitsRev ds

/-- The character printing a single decimal digit. -/
def decDigitChar (d : Nat) : Char := Char.ofNat (48 + d)

/-- The decimal numeral of a natural number: the rendering JS
`String(...)` uses below the exponential-notation threshold `10 ^ 21`. -/
def natToDecString (n : Nat) : String :=
  if n = 0 then "0" else String.mk ((natDigitsRev n n).reverse.map decDigitChar)

/-- The decimal numeral of an integer (sub-threshold branch of JS
`String(...)`). -/
def intToDecString (n : Int) : String :=
  if n < 0 then "-" ++ natToDecString n.natAbs else natToDecString n.natAbs

/-- ECMAScript exponential notation of a positive natural, applied to the
idealised exact value: the significant digits (trailing zeros stripped)
with a decimal point after the first one, then `e+` and the decimal
exponent, so `10 ^ 21` prints as `1e+21` and `15 * 10 ^ 20` as
`1.5e+21`. -/
def natToExpString (n : Nat) : String :=
  let digits := natDigitsRev n n
  let expo := natToDecString (digits.length - 1)
  match (digits.dropWhile (fun d => d == 0)).reverse with
  | [] => "0"
  | [d] => String.mk [decDigitChar d] ++ "e+" ++ expo
  | d :: rest => String.mk [decDigitChar d] ++ "." ++ String.mk (rest.map decDigitChar)
      ++ "e+" ++ expo

/-- Models ECMAScript `String(...)` on an integral non-negative number:
the decimal numeral below `10 ^ 21`, exponential notation from `10 ^ 21`
on. -/
def natToJsString (n : Nat) : String :=
  if n < 10 ^ 21 then natToDecString n else natToExpString n

/-- Models ECMAScript `String(...)` on an integral number. -/
def intToJsString (n : Int) : String :=
  if n < 0 then "-" ++ natToJsString n.natAbs else natToJsString n.natAbs

/-- Numeric value of a decimal digit character. -/
def decDigitVal (c : Char) : Nat := c.toNat - 48

/-- Decimal digit test (`0` through `9`). -/
def isDecDigit (c : Char) : Bool :=
  decide (48 ≤ c.toNat) && decide (c.toNat ≤ 57)

/-- Reads a most-significant-first digit string, accumulator style. -/
def decChunkToNat : List Char → Nat → Nat
  | [], acc => acc
  | c :: cs, acc => decChunkToNat cs (acc * 10 + decDigitVal c)

/-- Reads a character list the way JS `parseInt` does in radix 10: an
optional leading minus sign, then the longest leading run of decimal
digits, ignoring everything after it — so `1e+21` reads as `1`.  (JS
returns NaN when the digit run is empty; that case, which no claim
touches, is modelled as 0.) -/
def parseIntChars : List Char → Int
  | [] => 0
  | c :: cs => if c = '-' then -(decChunkToNat (cs.takeWhile isDecDigit) 0 : Int)
               else (decChunkToNat ((c :: cs).takeWhile isDecDigit) 0 : Int)

/-- Models JS `parseInt` as the program applies it to `integerValue`
payloads. -/
def parseIntStr (s : String) : Int :=
  parseIntChars s.data

theorem mem_natDigitsRev_lt {fuel n d : Nat} (h : d ∈ natDigitsRev fuel n) : d < 10 := by
  induction fuel generalizing n with
  | zero => simp [natDigitsRev] at h
  | succ fuel ih =>
    by_cases hn : n = 0
    · simp [natDigitsRev, hn] at h
    · simp only [natDigitsRev, if_neg hn, List.mem_cons] at h
      rcases h with h | h
      · omega
      · exact ih h

theorem ofDigitsRev_natDigitsRev {fuel n : Nat} (h : n ≤ fuel) :
    ofDigitsRev (natDigitsRev fuel n) = n := by
  induction fuel generalizing n with
  | zero =>
    have hn : n = 0 := by omega
    subst hn; rfl
  | succ fuel ih =>
    by_cases hn : n = 0
    · simp [natDigitsRev, hn, ofDigitsRev]
    · have hdiv : n / 10 ≤ fuel := by omega
      simp only [natDigitsRev, if_neg hn, ofDigitsRev, ih hdiv]
      omega

theorem decDigitVal_decDigitChar {d : Nat} (h : d < 10) :
    decDigitVal (decDigitChar d) = d := by
  interval_cases d <;> rfl

theorem decDigitChar_ne_minus {d : Nat} (h : d < 10) : decDigitChar d ≠ '-' := by
  interval_cases d <;> decide

theorem decChunkToNat_append (l1 l2 : List Char) (acc : Nat) :
    decChunkToNat (l1 ++ l2) acc = decChunkToNat l2 (decChunkToNat l1 acc) := by
  induction l1 generalizing acc with
  | nil => rfl
  | cons c cs ih =>
    simp only [List.cons_append, decChunkToNat]
    exact ih _

theorem decChunkToNat_reverse_digits (ds : List Nat) (acc : Nat)
    (h : ∀ d ∈ ds, d < 10) :
    decChunkToNat (ds.reverse.map decDigitChar) acc = acc * 10 ^ ds.length + ofDigitsRev ds := by
  induction ds generalizing acc with
  | nil => simp [decChunkToNat, ofDigitsRev]
  | cons d ds ih =>
    have hd : d < 10 := h d (by simp)
    have hds : ∀ x ∈ ds, x < 10 := fun x hx => h x (by simp [hx])
    simp only [List.reverse_cons, List.map_append, decChunkToNat_append, ih acc hds]
    simp only [List.map_cons, List.map_nil, decChunkToNat, decDigitVal_decDigitChar hd,
      ofDigitsRev, List.length_cons]
    ring

theorem decChunkToNat_natToDecString (n : Nat) :
    decChunkToNat (natToDecString n).data 0 = n := by
  by_cases hn : n = 0
  · subst hn; rfl
  · have hds : ∀ d ∈ natDigitsRev n n, d < 10 := fun d hd => mem_natDigitsRev_lt hd
    have := decChunkToNat_reverse_digits (natDigitsRev n n) 0 hds
    simpa [natToDecString, hn, ofDigitsRev_natDigitsRev (Nat.le_refl n)] using this

theorem natToDecString_head_digit (n : Nat) :
    ∃ c cs, (natToDecString n).data = c :: cs ∧ c ≠ '-' := by
  by_cases hn : n = 0
  · exact ⟨'0', [], by subst hn; constructor <;> first | rfl | decide⟩
  · have hne : natDigitsRev n n ≠ [] := by
      cases n with
      | zero => omega
      | succ m => simp [natDigitsRev]
    rcases hrev : (natDigitsRev n n).reverse with _ | ⟨d, ds⟩
    · exact absurd (by simpa using hrev) hne
    · refine ⟨decDigitChar d, ds.map decDigitChar, ?_, ?_⟩
      · simp [natToDecString, hn, hrev]
      · have hd : d < 10 := mem_natDigitsRev_lt (by
          have : d ∈ (natDigitsRev n n).reverse := by simp [hrev]
          simpa using this)
        exact decDigitChar_ne_minus hd

theorem isDecDigit_decDigitChar {d : Nat} (h : d < 10) :
    isDecDigit (decDigitChar d) = true := by
  interval_cases d <;> rfl

theorem natToDecString_all_digits (n : Nat) :
    ∀ c ∈ (natToDecString n).data, isDecDigit c = true := by
  by_cases hn : n = 0
  · subst hn
    intro c hc
    have : c = '0' := by simpa [natToDecString] using hc
    subst this
    rfl
  · intro c hc
    simp only [natToDecString, if_neg hn] at hc
    rcases List.mem_map.mp (by simpa using hc) with ⟨d, hd, rfl⟩
    exact isDecDigit_decDigitChar (mem_natDigitsRev_lt (by simpa using hd))

theorem takeWhile_natToDecString (n : Nat) :
    (natToDecString n).data.takeWhile isDecDigit = (natToDecString n).data :=
  List.takeWhile_eq_self_iff.mpr
    (fun c hc => by simpa using natToDecString_all_digits n c hc)

theorem parseIntStr_natToDecString (n : Nat) :
    parseIntStr (natToDecString n) = (n : Int) := by
  obtain ⟨c, cs, hdata, hc⟩ := natToDecString_head_digit n
  have hval := decChunkToNat_natToDecString n
  have htw := takeWhile_natToDecString n
  rw [hdata] at hval htw
  rw [parseIntStr, hdata]
  simp only [parseIntChars, if_neg hc, htw]
  exact_mod_cast hval

theorem parseIntStr_intToDecString (n : Int) :
    parseIntStr (intToDecString n) = n := by
  by_cases hneg : n < 0
  · have hdata : ("-" ++ natToDecString n.natAbs).data
        = '-' :: (natToDecString n.natAbs).data := by
      simp [String.data_append]
    rw [intToDecString, if_pos hneg, parseIntStr, hdata]
    simp [parseIntChars, takeWhile_natToDecString, decChunkToNat_natToDecString]
    rw [abs_of_neg hneg]
    ring
  · rw [intToDecString, if_neg hneg, parseIntStr_natToDecString]
    omega

theorem natToJsString_small {n : Nat} (h : n < 10 ^ 21) :
    natToJsString n = natToDecString n := by
  unfold natToJsString
  rw [if_pos h]

theorem intToJsString_small {n : Int} (h : n.natAbs < 10 ^ 21) :
    intToJsString n = intToDecString n := by
  by_cases hneg : n < 0 <;>
    simp [intToJsString, intToDecString, hneg, natToJsString_small h]

theorem parseIntStr_intToJsString {n : Int} (h : n.natAbs < 10 ^ 21) :
    parseIntStr (intToJsString n) = n := by
  rw [intToJsString_small h, parseIntStr_intToDecString]

/-! ### Native values and wire values -/

/-- JavaScript native values as the codec observes them.  `vnum` is the single
JS number type, modelled by `ℚ`; `vundef` is `undefined`; `vother s` is any
value outside the JSON shapes, identified by its `String(...)` conversion. -/
inductive NVal where
  | vnull
  | vundef
  | vstr (s : String)
  | vnum (q : ℚ)
  | vbool (b : Bool)
  | varr (xs : List NVal)
  | vmap (m : List (String × NVal))
  | vother (s : String)
deriving Repr

/-- Firestore wire values, one constructor per tag of the REST document
format.  `integerValue` carries its decimal string; `arrayValue` and
`mapValue` carry an optional payload because the wire JSON may omit the
inner `values` / `fields` member.  `unknownTag` stands for a tag outside
the recognised set. -/
inductive FVal where
  | stringValue (s : String)
  | integerValue (s : String)
  | doubleValue (q : ℚ)
  | booleanValue (b : Bool)
  | nullValue
  | timestampValue (s : String)
  | arrayValue (values : Option (List FVal))
  | mapValue (fields : Option (List (String × FVal)))
  | unknownTag
deriving Repr

mutual
/-- Embeds `toFirestoreValue` (source lines 180-190): null/undefined to the
null tag, strings to the string tag, a number to the integer tag when
`Number.isInteger` holds (decimal string payload) and the double tag
otherwise, booleans to the boolean tag, arrays and plain objects
recursively, and anything else to the string tag via string conversion. -/
def toFirestoreValue : NVal → FVal
  | .vnull => .nullValue
  | .vundef => .nullValue
  | .vstr s => .stringValue s
  | .vnum q => if q.den = 1 then .integerValue (intToJsString q.num) else .doubleValue q
  | .vbool b => .booleanValue b
  | .varr xs => .arrayValue (some (toFirestoreValueList xs))
  | .vmap m => .mapValue (some (toFirestoreValueEntries m))
  | .vother s => .stringValue s

/-- Elementwise encoding of an array payload (`value.map(toFirestoreValue)`). -/
def toFirestoreValueList : List NVal → List FVal
  | [] => []
  | x :: xs => toFirestoreValue x :: toFirestoreValueList xs

/-- Entrywise encoding of an object (`objectToDoc`, source lines 172-178). -/
def toFirestoreValueEntries : List (String × NVal) → List (String × FVal)
  | [] => []
  | (k, v) :: m => (k, toFirestoreValue v) :: toFirestoreValueEntries m
end

/-- Embeds `objectToDoc` (source lines 172-178): encodes every entry of a
plain object, producing the `fields` mapping of a wire document. -/
def objectToDoc (obj : List (String × NVal)) : List (String × FVal) :=
  toFirestoreValueEntries obj

mutual
/-- Embeds `parseFirestoreValue` (source lines 157-167): one branch per
recognised tag; `integerValue` goes through `parseInt`; a `mapValue` whose
`fields` member is absent decodes to `null` (that is what `docToObject`
returns for a document without `fields`); an unrecognised tag decodes to
`null`. -/
def parseFirestoreValue : FVal → NVal
  | .stringValue s => .vstr s
  | .integerValue s => .vnum ((parseIntStr s : Int) : ℚ)
  | .doubleValue q => .vnum q
  | .booleanValue b => .vbool b
  | .nullValue => .vnull
  | .timestampValue s => .vstr s
  | .arrayValue none => .varr []
  | .arrayValue (some vs) => .varr (parseFirestoreValueList vs)
  | .mapValue none => .vnull
  | .mapValue (some fs) => .vmap (parseFirestoreValueEntries fs)
  | .unknownTag => .vnull

/-- Elementwise decoding of an array payload (`values.map(parseFirestoreValue)`). -/
def parseFirestoreValueList : List FVal → List NVal
  | [] => []
  | v :: vs => parseFirestoreValue v :: parseFirestoreValueList vs

/-- Entrywise decoding of a `fields` mapping (`docToObject`, source
lines 148-155, restricted to a present `fields` member). -/
def parseFirestoreValueEntries : List (String × FVal) → List (String × NVal)
  | [] => []
  | (k, v) :: fs => (k, parseFirestoreValue v) :: parseFirestoreValueEntries fs
end

/-- Embeds `docToObject` (source lines 148-155): a document without a
`fields` member yields `null`, otherwise every field is decoded. -/
def docToObject (fields : Option (List (String × FVal))) : NVal :=
  match fields with
  | none => .vnull
  | some fs => .vmap (parseFirestoreValueEntries fs)

mutual
/-- Characterises the native values within the six supported shapes of the
codec contract: string, number, boolean, null, arrays and string-keyed maps
of such values.  `undefined` and non-JSON values are outside. -/
def NVal.supported : NVal → Bool
  | .vnull => true
  | .vundef => false
  | .vstr _ => true
  | .vnum _ => true
  | .vbool _ => true
  | .varr xs => supportedList xs
  | .vmap m => supportedEntries m
  | .vother _ => false

/-- All elements of a list are supported values. -/
def supportedList : List NVal → Bool
  | [] => true
  | x :: xs => x.supported && supportedList xs

/-- All values of an entry list are supported values. -/
def supportedEntries : List (String × NVal) → Bool
  | [] => true
  | kv :: m => kv.2.supported && supportedEntries m
end

mutual
/-- Below-threshold predicate: every integral number inside the value
has magnitude below `10 ^ 21`, the point at which JS `String` switches
to exponential notation, whose output the decoder's `parseInt` then
misreads (`parseInt("1e+21") = 1`). -/
def NVal.decimalSafe : NVal → Bool
  | .vnull => true
  | .vundef => true
  | .vstr _ => true
  | .vnum q => if q.den = 1 then decide (q.num.natAbs < 10 ^ 21) else true
  | .vbool _ => true
  | .varr xs => decimalSafeList xs
  | .vmap m => decimalSafeEntries m
  | .vother _ => true

/-- All elements of a list are below-threshold values. -/
def decimalSafeList : List NVal → Bool
  | [] => true
  | x :: xs => x.decimalSafe && decimalSafeList xs

/-- All values of an entry list are below-threshold values. -/
def decimalSafeEntries : List (String × NVal) → Bool
  | [] => true
  | kv :: m => kv.2.decimalSafe && decimalSafeEntries m
end

theorem toFirestoreValueList_eq_map (xs : List NVal) :
    toFirestoreValueList xs = xs.map toFirestoreValue := by
  induction xs with
  | nil => rfl
  | cons x xs ih => simp [toFirestoreValueList, ih]

theorem toFirestoreValueEntries_eq_map (m : List (String × NVal)) :
    toFirestoreValueEntries m = m.map (fun kv => (kv.1, toFirestoreValue kv.2)) := by
  induction m with
  | nil => rfl
  | cons kv m ih => obtain ⟨k, v⟩ := kv; simp [toFirestoreValueEntries, ih]

theorem parseFirestoreValueList_eq_map (vs : List FVal) :
    parseFirestoreValueList vs = vs.map parseFirestoreValue := by
  induction vs with
  | nil => rfl
  | cons v vs ih => simp [parseFirestoreValueList, ih]

theorem parseFirestoreValueEntries_eq_map (fs : List (String × FVal)) :
    parseFirestoreValueEntries fs = fs.map (fun kv => (kv.1, parseFirestoreValue kv.2)) := by
  induction fs with
  | nil => rfl
  | cons kv fs ih => obtain ⟨k, v⟩ := kv; simp [parseFirestoreValueEntries, ih]

theorem supportedList_mem {xs : List NVal} (h : supportedList xs = true) :
    ∀ x ∈ xs, x.supported = true := by
  induction xs with
  | nil => simp
  | cons x xs ih =>
    simp only [supportedList, Bool.and_eq_true] at h
    intro y hy
    rcases List.mem_cons.mp hy with hy | hy
    · exact hy ▸ h.1
    · exact ih h.2 y hy

theorem supportedEntries_mem {m : List (String × NVal)} (h : supportedEntries m = true) :
    ∀ kv ∈ m, kv.2.supported = true := by
  induction m with
  | nil => simp
  | cons kv m ih =>
    simp only [supportedEntries, Bool.and_eq_true] at h
    intro kw hkw
    rcases List.mem_cons.mp hkw with hkw | hkw
    · exact hkw ▸ h.1
    · exact ih h.2 kw hkw

theorem decimalSafeList_mem {xs : List NVal} (h : decimalSafeList xs = true) :
    ∀ x ∈ xs, x.decimalSafe = true := by
  induction xs with
  | nil => simp
  | cons x xs ih =>
    simp only [decimalSafeList, Bool.and_eq_true] at h
    intro y hy
    rcases List.mem_cons.mp hy with hy | hy
    · exact hy ▸ h.1
    · exact ih h.2 y hy

theorem decimalSafeEntries_mem {m : List (String × NVal)} (h : decimalSafeEntries m = true) :
    ∀ kv ∈ m, kv.2.decimalSafe = true := by
  induction m with
  | nil => simp
  | cons kv m ih =>
    simp only [decimalSafeEntries, Bool.and_eq_true] at h
    intro kw hkw
    rcases List.mem_cons.mp hkw with hkw | hkw
    · exact hkw ▸ h.1
    · exact ih h.2 kw hkw

/-- Structural induction for `NVal`, threading membership into the nested
lists. -/
theorem NVal.inductOn (P : NVal → Prop)
    (hnull : P .vnull) (hundef : P .vundef)
    (hstr : ∀ s, P (.vstr s)) (hnum : ∀ q, P (.vnum q)) (hbool : ∀ b, P (.vbool b))
    (harr : ∀ xs, (∀ x ∈ xs, P x) → P (.varr xs))
    (hmap : ∀ m, (∀ kv ∈ m, P kv.2) → P (.vmap m))
    (hother : ∀ s, P (.vother s)) : ∀ v, P v
  | .vnull => hnull
  | .vundef => hundef
  | .vstr s => hstr s
  | .vnum q => hnum q
  | .vbool b => hbool b
  | .varr xs => harr xs (fun x hx =>
      NVal.inductOn P hnull hundef hstr hnum hbool harr hmap hother x)
  | .vmap m => hmap m (fun kv hkv =>
      NVal.inductOn P hnull hundef hstr hnum hbool harr hmap hother kv.2)
  | .vother s => hother s
termination_by v => sizeOf v
decreasing_by
  · have := List.sizeOf_lt_of_mem hx
    simp only [NVal.varr.sizeOf_spec]
    omega
  · have h1 := List.sizeOf_lt_of_mem hkv
    have h2 : sizeOf kv.2 < sizeOf kv := by
      obtain ⟨a, b⟩ := kv
      simp only [Prod.mk.sizeOf_spec]
      omega
    simp only [NVal.vmap.sizeOf_spec]
    omega

theorem roundtrip_vnum (q : ℚ) (hsmall : q.den = 1 → q.num.natAbs < 10 ^ 21) :
    parseFirestoreValue (toFirestoreValue (.vnum q)) = .vnum q := by
  by_cases hq : q.den = 1
  · simp only [toFirestoreValue, if_pos hq, parseFirestoreValue,
      parseIntStr_intToJsString (hsmall hq)]
    exact congrArg NVal.vnum (Rat.coe_int_num_of_den_eq_one hq)
  · simp [toFirestoreValue, if_neg hq, parseFirestoreValue]

theorem roundtrip_supported : ∀ v : NVal, v.supported = true → v.decimalSafe = true →
    parseFirestoreValue (toFirestoreValue v) = v := by
  intro v
  induction v using NVal.inductOn with
  | hnull => intro _ _; rfl
  | hundef => intro h _; simp [NVal.supported] at h
  | hstr s => intro _ _; rfl
  | hnum q =>
    intro _ hsafe
    refine roundtrip_vnum q (fun hq => ?_)
    simpa [NVal.decimalSafe, hq] using hsafe
  | hbool b => intro _ _; rfl
  | harr xs ih =>
    intro h hsafe
    simp only [NVal.supported] at h
    simp only [NVal.decimalSafe] at hsafe
    simp only [toFirestoreValue, toFirestoreValueList_eq_map, parseFirestoreValue,
      parseFirestoreValueList_eq_map, List.map_map]
    refine congrArg NVal.varr ?_
    have hpt : ∀ x ∈ xs, (parseFirestoreValue ∘ toFirestoreValue) x = id x :=
      fun x hx => ih x hx (supportedList_mem h x hx) (decimalSafeList_mem hsafe x hx)
    rw [List.map_congr_left hpt, List.map_id]
  | hmap m ih =>
    intro h hsafe
    simp only [NVal.supported] at h
    simp only [NVal.decimalSafe] at hsafe
    simp only [toFirestoreValue, toFirestoreValueEntries_eq_map, parseFirestoreValue,
      parseFirestoreValueEntries_eq_map, List.map_map]
    refine congrArg NVal.vmap ?_
    have hpt : ∀ kv ∈ m,
        ((fun kv : String × FVal => (kv.1, parseFirestoreValue kv.2)) ∘
          (fun kv : String × NVal => (kv.1, toFirestoreValue kv.2))) kv = id kv := by
      intro kv hkv
      simpa using congrArg (Prod.mk kv.1)
        (ih kv hkv (supportedEntries_mem h kv hkv) (decimalSafeEntries_mem hsafe kv hkv))
    rw [List.map_congr_left hpt, List.map_id]
  | hother s => intro h _; simp [NVal.supported] at h

/-! ### The HTTP world, the token cache and the client state -/

/-- The process-wide `firebaseConfig` set by `initFirebase` (source
lines 13-29); the private key is held after newline normalization. -/
structure FirebaseConfig where
  projectId : String
  clientEmail : String
  privateKey : String
deriving Repr

/-- The wire shape of the structured query that `QueryRef.get` posts
(source lines 271-296).  The `where` clause is either a bare
`fieldFilter` node or a `compositeFilter` node wrapping such nodes. -/
inductive WhereNode where
  | fieldFilter (fieldPath : String) (op : String) (value : FVal)
  | compositeFilter (op : String) (filters : List WhereNode)
deriving Repr

/-- Wire structured query: a single collection selector in `from`, an
optional `where` clause and an optional `limit`. -/
structure StructuredQueryWire where
  fromCollectionId : String
  whereClause : Option WhereNode
  limit : Option Int
deriving Repr

/-- One request body, structured per endpoint: the form-encoded token
exchange, a JSON document write (`objectToDoc` output), or a structured
query. -/
inductive ReqBody where
  | formBody (s : String)
  | docBody (fields : List (String × FVal))
  | queryBody (q : StructuredQueryWire)
deriving Repr

/-- One HTTP request as the client assembles it: method, full URL
(including any `updateMask.fieldPaths` query string), the
`Authorization` header value if any, the `Content-Type` header value if
any, and the body. -/
structure HttpRequest where
  method : String
  url : String
  authorization : Option String
  contentType : Option String
  body : Option ReqBody
deriving Repr

/-- A query result envelope's optional document (`r.document`). -/
structure QueryDoc where
  name : String
  fields : Option (List (String × FVal))
deriving Repr

/-- One parsed JSON response body, structured per endpoint: the token
endpoint's JSON, a document body (`name` and `fields` both optional: an
error body carries neither), or a `runQuery` result list whose envelopes
optionally contain a document. -/
inductive RespBody where
  | token (access_token : String) (expires_in : Int) (error_description : Option String)
  | doc (name : Option String) (fields : Option (List (String × FVal)))
  | queryResults (results : List (Option QueryDoc))
  | empty
deriving Repr

/-- An HTTP response: status and parsed JSON body. -/
structure HttpResponse where
  status : Nat
  body : RespBody
deriving Repr

/-- JS `response.ok`: status in the 2xx range. -/
def HttpResponse.respOk (r : HttpResponse) : Bool :=
  decide (200 ≤ r.status) && decide (r.status < 300)

/-- The outcome of one `fetch`: an HTTP response, or a rejected promise
(network failure). -/
inductive FetchOutcome where
  | success (r : HttpResponse)
  | netFail (msg : String)
deriving Repr

/-- The environment: the outcome of the n-th `fetch` the process performs. -/
def Net := Nat → FetchOutcome

/-- A thrown JS exception: a rejected `fetch` promise, or an `Error`
thrown by the client code itself. -/
inductive JsError where
  | fetchFailed (msg : String)
  | thrown (msg : String)
deriving Repr

/-- The module-level mutable state (source lines 6-8: `accessToken`,
`tokenExpiry`) together with the log of issued HTTP requests, which
records the observable network behaviour. -/
structure FireState where
  accessToken : Option String
  tokenExpiry : Int
  reqLog : List HttpRequest

/-- A stateful client computation: a JS async function that may resolve
with a value or reject with an exception.  The state — including the
request log — survives an exception, as issued HTTP requests do. -/
def FireM (α : Type) : Type :=
  FireState → Except JsError α × FireState

/-- Performs one HTTP round trip: the request is appended to the log and
the environment decides the outcome of this (the `reqLog.length`-th)
fetch. -/
def fetch (net : Net) (req : HttpRequest) : FireM HttpResponse := fun s =>
  match net s.reqLog.length with
  | .success r => (.ok r, { s with reqLog := s.reqLog ++ [req] })
  | .netFail msg => (.error (.fetchFailed msg), { s with reqLog := s.reqLog ++ [req] })

/-- Models `createJWT` (source lines 34-100): assembles the signed
assertion from the service-account email and the current time
(issued-at `now`, expiry `now + 3600` seconds).  The `btoa`, JSON and
RSASSA-PKCS1-v1_5 primitives are host crypto; no claim inspects the JWT
contents, only that the assertion is embedded in the token-exchange
request body, so the assertion is represented by the data it is built
from. -/
def createJWT (cfg : FirebaseConfig) (now : Int) : String :=
  "jwt." ++ cfg.clientEmail ++ "." ++ intToDecString now ++ "." ++ intToDecString (now + 3600)

/-- The token-exchange request `getAccessToken` posts (source
lines 117-121): form-encoded grant type `jwt-bearer` with the signed
assertion. -/
def tokenRequest (cfg : FirebaseConfig) (now : Int) : HttpRequest :=
  { method := "POST"
    url := "https://oauth2.googleapis.com/token"
    authorization := none
    contentType := some "application/x-www-form-urlencoded"
    body := some (.formBody
      ("grant_type=urn:ietf:params:oauth:grant-type:jwt-bearer&assertion=" ++ createJWT cfg now)) }

/-- The error message `getAccessToken` throws for a non-ok exchange:
`data.error_description || data.error`, with both absent rendering as
`undefined`. -/
def tokenErrMsg (b : RespBody) : String :=
  match b with
  | .token _ _ (some ed) => ed
  | _ => "undefined"

/-- Embeds `getAccessToken` (source lines 105-136).  `now` is
`Date.now()` in milliseconds.  When a cached token is present (a truthy
string) and `tokenExpiry > now`, it is returned with no network I/O.
Otherwise one JWT is signed and exchanged; a non-2xx exchange throws;
on success the token is cached with
`tokenExpiry = now + (expires_in - 60) * 1000` and returned. -/
def getAccessToken (net : Net) (cfg : FirebaseConfig) (now : Int) : FireM String := fun s =>
  if s.accessToken.getD "" ≠ "" ∧ s.tokenExpiry > now then
    (.ok (s.accessToken.getD ""), s)
  else
    match fetch net (tokenRequest cfg now) s with
    | (.error e, s1) => (.error e, s1)
    | (.ok resp, s1) =>
      if resp.respOk then
        match resp.body with
        | .token tok ei _ =>
          (.ok tok, { s1 with accessToken := some tok, tokenExpiry := now + (ei - 60) * 1000 })
        | _ => (.error (.thrown "Failed to get access token: unexpected body"), s1)
      else
        (.error (.thrown ("Failed to get access token: " ++ tokenErrMsg resp.body)), s1)

/-- Embeds `getFirestoreUrl` (source lines 141-143). -/
def getFirestoreUrl (cfg : FirebaseConfig) (path : String) : String :=
  "https://firestore.googleapis.com/v1/projects/" ++ cfg.projectId
    ++ "/databases/(default)/documents" ++ path

/-- URL of one document. -/
def docUrl (cfg : FirebaseConfig) (collection id : String) : String :=
  getFirestoreUrl cfg ("/" ++ collection ++ "/" ++ id)

/-- The `updateMask.fieldPaths=k1&updateMask.fieldPaths=k2&...` query
string built from `Object.keys(obj)` (source lines 378 and 395): one
entry per supplied top-level field name, in insertion order. -/
def updateMaskQS (obj : List (String × NVal)) : String :=
  String.intercalate "&" (obj.map (fun kv => "updateMask.fieldPaths=" ++ kv.1))

/-- Last path segment of a resource name (`name.split('/').pop()`). -/
def lastSegment (s : String) : String :=
  (s.splitOn "/").getLastD ""

/-- A document handle: collection name and document id. -/
structure DocumentRef where
  collection : String
  id : String
deriving Repr

/-- Embeds `DocumentSnapshot` (source lines 338-349): the document id
and the (possibly absent) wire `fields` mapping. -/
structure DocumentSnapshot where
  id : String
  fields : Option (List (String × FVal))
deriving Repr

/-- JS `snapshot.exists`: `!!doc.fields` — true exactly when the wire
document carried a `fields` member (an empty `fields` object is truthy). -/
def DocumentSnapshot.existsFlag (snap : DocumentSnapshot) : Bool :=
  snap.fields.isSome

/-- JS `snapshot.data()`: `docToObject(_doc)`. -/
def DocumentSnapshot.data (snap : DocumentSnapshot) : NVal :=
  docToObject snap.fields

/-- The GET request `DocumentRef.get` issues. -/
def getRequest (cfg : FirebaseConfig) (ref : DocumentRef) (tok : String) : HttpRequest :=
  { method := "GET"
    url := docUrl cfg ref.collection ref.id
    authorization := some ("Bearer " ++ tok)
    contentType := none
    body := none }

/-- Embeds `DocumentRef.get` (source lines 357-369): obtains a bearer
token, GETs the document URL; a 404 yields a snapshot built from
`{id}` alone (no fields, before the body is even read); any other
response is parsed and the snapshot is built from the body's `fields`
member, absent on an error body. -/
def DocumentRef.get (ref : DocumentRef) (net : Net) (cfg : FirebaseConfig) (now : Int) :
    FireM DocumentSnapshot := fun s =>
  match getAccessToken net cfg now s with
  | (.error e, s1) => (.error e, s1)
  | (.ok tok, s1) =>
    match fetch net (getRequest cfg ref tok) s1 with
    | (.error e, s2) => (.error e, s2)
    | (.ok resp, s2) =>
      if resp.status = 404 then
        (.ok { id := ref.id, fields := none }, s2)
      else
        match resp.body with
        | .doc _ fields => (.ok { id := ref.id, fields := fields }, s2)
        | _ => (.ok { id := ref.id, fields := none }, s2)

/-- The PATCH request `DocumentRef.set` issues: the update mask is
appended to the URL exactly when `merge` is requested. -/
def setRequest (cfg : FirebaseConfig) (ref : DocumentRef) (obj : List (String × NVal))
    (merge : Bool) (tok : String) : HttpRequest :=
  { method := "PATCH"
    url := if merge then docUrl cfg ref.collection ref.id ++ "?" ++ updateMaskQS obj
           else docUrl cfg ref.collection ref.id
    authorization := some ("Bearer " ++ tok)
    contentType := some "application/json"
    body := some (.docBody (objectToDoc obj)) }

/-- Embeds `DocumentRef.set` (source lines 371-390): obtains a bearer
token and PATCHes the encoded document; with `merge` the URL carries an
`updateMask.fieldPaths` entry per supplied field name.  The response is
not inspected. -/
def DocumentRef.set (ref : DocumentRef) (net : Net) (cfg : FirebaseConfig) (now : Int)
    (obj : List (String × NVal)) (merge : Bool) : FireM Unit := fun s =>
  match getAccessToken net cfg now s with
  | (.error e, s1) => (.error e, s1)
  | (.ok tok, s1) =>
    match fetch net (setRequest cfg ref obj merge tok) s1 with
    | (.error e, s2) => (.error e, s2)
    | (.ok _, s2) => (.ok (), s2)

/-- The PATCH request `DocumentRef.update` issues: the update mask is
always appended to the URL. -/
def updateRequest (cfg : FirebaseConfig) (ref : DocumentRef) (obj : List (String × NVal))
    (tok : String) : HttpRequest :=
  { method := "PATCH"
    url := docUrl cfg ref.collection ref.id ++ "?" ++ updateMaskQS obj
    authorization := some ("Bearer " ++ tok)
    contentType := some "application/json"
    body := some (.docBody (objectToDoc obj)) }

/-- Embeds `DocumentRef.update` (source lines 392-405): obtains a bearer
token and PATCHes the encoded document with an update mask covering the
supplied fields.  The response is not inspected. -/
def DocumentRef.update (ref : DocumentRef) (net : Net) (cfg : FirebaseConfig) (now : Int)
    (obj : List (String × NVal)) : FireM Unit := fun s =>
  match getAccessToken net cfg now s with
  | (.error e, s1) => (.error e, s1)
  | (.ok tok, s1) =>
    match fetch net (updateRequest cfg ref obj tok) s1 with
    | (.error e, s2) => (.error e, s2)
    | (.ok _, s2) => (.ok (), s2)

/-- The DELETE request `DocumentRef.delete` issues. -/
def deleteRequest (cfg : FirebaseConfig) (ref : DocumentRef) (tok : String) : HttpRequest :=
  { method := "DELETE"
    url := docUrl cfg ref.collection ref.id
    authorization := some ("Bearer " ++ tok)
    contentType := none
    body := none }

/-- Embeds `DocumentRef.delete` (source lines 407-414): obtains a bearer
token and DELETEs the document URL.  The response is not inspected. -/
def DocumentRef.delete (ref : DocumentRef) (net : Net) (cfg : FirebaseConfig) (now : Int) :
    FireM Unit := fun s =>
  match getAccessToken net cfg now s with
  | (.error e, s1) => (.error e, s1)
  | (.ok tok, s1) =>
    match fetch net (deleteRequest cfg ref tok) s1 with
    | (.error e, s2) => (.error e, s2)
    | (.ok _, s2) => (.ok (), s2)

/-! ### Query builder -/

/-- One accumulated filter (`{field, op, value}`). -/
structure Filter where
  field : String
  op : String
  value : NVal
deriving Repr

/-- A query handle: collection, accumulated filters in order, optional
row limit (source lines 253-266). -/
structure QueryRef where
  collection : String
  filters : List Filter
  limitCount : Option Int
deriving Repr

/-- Fluent filter accumulation (`QueryRef.where`, source lines 260-262):
returns a new handle with the filter appended. -/
def QueryRef.whereF (q : QueryRef) (field op : String) (value : NVal) : QueryRef :=
  { q with filters := q.filters ++ [{ field := field, op := op, value := value }] }

/-- Fluent limit (`QueryRef.limit`, source lines 264-266). -/
def QueryRef.limitN (q : QueryRef) (n : Int) : QueryRef :=
  { q with limitCount := some n }

/-- The operator translation map of `QueryRef.get` (source line 276);
an unrecognised operator falls back to `EQUAL` (`opMap[f.op] || 'EQUAL'`). -/
def opMap (op : String) : String :=
  if op = "==" then "EQUAL"
  else if op = "<" then "LESS_THAN"
  else if op = ">" then "GREATER_THAN"
  else if op = "<=" then "LESS_THAN_OR_EQUAL"
  else if op = ">=" then "GREATER_THAN_OR_EQUAL"
  else "EQUAL"

/-- One filter's wire node (`{fieldFilter: ...}` nodes, source
lines 280-287). -/
def filterToNode (f : Filter) : WhereNode :=
  .fieldFilter f.field (opMap f.op) (toFirestoreValue f.value)

/-- The `where` clause construction of `QueryRef.get` (source
lines 275-292): no clause without filters; a composite AND of one
`fieldFilter` node per filter; when exactly one filter exists the
wrapper is replaced by its single `fieldFilter` node
(`structuredQuery.where.compositeFilter.filters[0]`). -/
def buildWhere (fs : List Filter) : Option WhereNode :=
  match fs with
  | [] => none
  | f :: rest =>
    if rest.isEmpty then some (filterToNode f)
    else some (.compositeFilter "AND" ((f :: rest).map filterToNode))

/-- The structured query `QueryRef.get` sends (source lines 271-296):
collection selector, conditional `where` shape, and the limit when the
accumulated count is truthy (`if (this.limitCount)`). -/
def mkStructuredQuery (col : String) (fs : List Filter) (limitCount : Option Int) :
    StructuredQueryWire :=
  { fromCollectionId := col
    whereClause := buildWhere fs
    limit := match limitCount with
             | some n => if n ≠ 0 then some n else none
             | none => none }

/-- The POST request `QueryRef.get` issues to the `runQuery` endpoint. -/
def queryRequest (cfg : FirebaseConfig) (q : StructuredQueryWire) (tok : String) : HttpRequest :=
  { method := "POST"
    url := "https://firestore.googleapis.com/v1/projects/" ++ cfg.projectId
      ++ "/databases/(default)/documents:runQuery"
    authorization := some ("Bearer " ++ tok)
    contentType := some "application/json"
    body := some (.queryBody q) }

/-- Embeds `QueryRef.get` (source lines 268-320): builds the structured
query, POSTs it, and keeps exactly the result envelopes that contain a
document, each turned into a snapshot whose id is the last segment of
the resource name. -/
def QueryRef.get (q : QueryRef) (net : Net) (cfg : FirebaseConfig) (now : Int) :
    FireM (List DocumentSnapshot) := fun s =>
  match getAccessToken net cfg now s with
  | (.error e, s1) => (.error e, s1)
  | (.ok tok, s1) =>
    match fetch net (queryRequest cfg (mkStructuredQuery q.collection q.filters q.limitCount) tok) s1 with
    | (.error e, s2) => (.error e, s2)
    | (.ok resp, s2) =>
      match resp.body with
      | .queryResults rs =>
        (.ok ((rs.filterMap id).map
          (fun d => { id := lastSegment d.name, fields := d.fields })), s2)
      | _ => (.error (.thrown "results.filter is not a function"), s2)

/-! ### Transaction batch -/

/-- One recorded batch operation (source lines 421-427): the JS
`{type, ref, data, options}` entries. -/
inductive TxOp where
  | updateOp (ref : DocumentRef) (data : List (String × NVal))
  | setOp (ref : DocumentRef) (data : List (String × NVal)) (merge : Bool)
deriving Repr

/-- Replays one recorded operation against the document client (the
loop body of `commit`, source lines 430-437). -/
def applyOp (net : Net) (cfg : FirebaseConfig) (now : Int) : TxOp → FireM Unit
  | .updateOp ref data => ref.update net cfg now data
  | .setOp ref data merge => ref.set net cfg now data merge

/-- Embeds `TransactionBatch.commit` (source lines 429-437): replays the
recorded operations sequentially in enqueue order, awaiting each before
issuing the next; a rejection aborts the loop and propagates. -/
def TransactionBatch.commit (net : Net) (cfg : FirebaseConfig) (now : Int) :
    List TxOp → FireM Unit
  | [] => fun s => (.ok (), s)
  | op :: rest => fun s =>
    match applyOp net cfg now op s with
    | (.ok _, s1) => TransactionBatch.commit net cfg now rest s1
    | (.error e, s1) => (.error e, s1)

/-! ### FieldValue sentinels -/

/-- Embeds the exported `FieldValue` helpers (source lines 451-454):
plain objects with a literal `__fieldTransform` key. -/
def FieldValue.increment (n : ℚ) : NVal :=
  .vmap [("__fieldTransform", .vstr "increment"), ("value", .vnum n)]

/-- The `serverTimestamp` sentinel (source line 453). -/
def FieldValue.serverTimestamp : NVal :=
  .vmap [("__fieldTransform", .vstr "serverTimestamp")]

/-! ### Run lemmas for the document operations -/

theorem getAccessToken_hit (net : Net) (cfg : FirebaseConfig) (now : Int)
    (s : FireState) (tok : String)
    (htok : s.accessToken = some tok) (hne : tok ≠ "") (hexp : s.tokenExpiry > now) :
    getAccessToken net cfg now s = (.ok tok, s) := by
  unfold getAccessToken
  rw [htok]
  simp only [Option.getD_some]
  rw [if_pos ⟨hne, hexp⟩]

theorem update_run (ref : DocumentRef) (net : Net) (cfg : FirebaseConfig) (now : Int)
    (obj : List (String × NVal)) (s : FireState) (tok : String) (r : HttpResponse)
    (htok : s.accessToken = some tok) (hne : tok ≠ "") (hexp : s.tokenExpiry > now)
    (hresp : net s.reqLog.length = .success r) :
    ref.update net cfg now obj s
      = (.ok (), { s with reqLog := s.reqLog ++ [updateRequest cfg ref obj tok] }) := by
  unfold DocumentRef.update
  rw [getAccessToken_hit net cfg now s tok htok hne hexp]
  dsimp only
  unfold fetch
  rw [hresp]

theorem set_run (ref : DocumentRef) (net : Net) (cfg : FirebaseConfig) (now : Int)
    (obj : List (String × NVal)) (merge : Bool) (s : FireState) (tok : String)
    (r : HttpResponse)
    (htok : s.accessToken = some tok) (hne : tok ≠ "") (hexp : s.tokenExpiry > now)
    (hresp : net s.reqLog.length = .success r) :
    ref.set net cfg now obj merge s
      = (.ok (), { s with reqLog := s.reqLog ++ [setRequest cfg ref obj merge tok] }) := by
  unfold DocumentRef.set
  rw [getAccessToken_hit net cfg now s tok htok hne hexp]
  dsimp only
  unfold fetch
  rw [hresp]

theorem delete_run (ref : DocumentRef) (net : Net) (cfg : FirebaseConfig) (now : Int)
    (s : FireState) (tok : String) (r : HttpResponse)
    (htok : s.accessToken = some tok) (hne : tok ≠ "") (hexp : s.tokenExpiry > now)
    (hresp : net s.reqLog.length = .success r) :
    ref.delete net cfg now s
      = (.ok (), { s with reqLog := s.reqLog ++ [deleteRequest cfg ref tok] }) := by
  unfold DocumentRef.delete
  rw [getAccessToken_hit net cfg now s tok htok hne hexp]
  dsimp only
  unfold fetch
  rw [hresp]

theorem get_run_404 (ref : DocumentRef) (net : Net) (cfg : FirebaseConfig) (now : Int)
    (s : FireState) (tok : String) (b : RespBody)
    (htok : s.accessToken = some tok) (hne : tok ≠ "") (hexp : s.tokenExpiry > now)
    (hresp : net s.reqLog.length = .success { status := 404, body := b }) :
    ref.get net cfg now s
      = (.ok { id := ref.id, fields := none },
         { s with reqLog := s.reqLog ++ [getRequest cfg ref tok] }) := by
  unfold DocumentRef.get
  rw [getAccessToken_hit net cfg now s tok htok hne hexp]
  dsimp only
  unfold fetch
  rw [hresp]
  rfl

theorem get_run_other (ref : DocumentRef) (net : Net) (cfg : FirebaseConfig) (now : Int)
    (s : FireState) (tok : String) (r : HttpResponse)
    (htok : s.accessToken = some tok) (hne : tok ≠ "") (hexp : s.tokenExpiry > now)
    (hresp : net s.reqLog.length = .success r) (hst : r.status ≠ 404) :
    ref.get net cfg now s
      = (.ok { id := ref.id
               fields := match r.body with | .doc _ fields => fields | _ => none },
         { s with reqLog := s.reqLog ++ [getRequest cfg ref tok] }) := by
  unfold DocumentRef.get
  rw [getAccessToken_hit net cfg now s tok htok hne hexp]
  dsimp only
  unfold fetch
  rw [hresp]
  simp only [if_neg hst]
  cases r with
  | mk status body => cases body <;> rfl

theorem get_log (ref : DocumentRef) (net : Net) (cfg : FirebaseConfig) (now : Int)
    (s : FireState) (tok : String)
    (htok : s.accessToken = some tok) (hne : tok ≠ "") (hexp : s.tokenExpiry > now) :
    (ref.get net cfg now s).2.reqLog = s.reqLog ++ [getRequest cfg ref tok] := by
  unfold DocumentRef.get
  rw [getAccessToken_hit net cfg now s tok htok hne hexp]
  dsimp only
  unfold fetch
  cases net s.reqLog.length with
  | success r =>
    obtain ⟨st, body⟩ := r
    dsimp only
    by_cases h404 : st = 404
    · simp [h404]
    · simp only [if_neg h404]
      cases body <;> rfl
  | netFail m => rfl

theorem set_log (ref : DocumentRef) (net : Net) (cfg : FirebaseConfig) (now : Int)
    (obj : List (String × NVal)) (merge : Bool) (s : FireState) (tok : String)
    (htok : s.accessToken = some tok) (hne : tok ≠ "") (hexp : s.tokenExpiry > now) :
    (ref.set net cfg now obj merge s).2.reqLog
      = s.reqLog ++ [setRequest cfg ref obj merge tok] := by
  unfold DocumentRef.set
  rw [getAccessToken_hit net cfg now s tok htok hne hexp]
  dsimp only
  unfold fetch
  cases net s.reqLog.length <;> rfl

theorem update_log (ref : DocumentRef) (net : Net) (cfg : FirebaseConfig) (now : Int)
    (obj : List (String × NVal)) (s : FireState) (tok : String)
    (htok : s.accessToken = some tok) (hne : tok ≠ "") (hexp : s.tokenExpiry > now) :
    (ref.update net cfg now obj s).2.reqLog = s.reqLog ++ [updateRequest cfg ref obj tok] := by
  unfold DocumentRef.update
  rw [getAccessToken_hit net cfg now s tok htok hne hexp]
  dsimp only
  unfold fetch
  cases net s.reqLog.length <;> rfl

theorem delete_log (ref : DocumentRef) (net : Net) (cfg : FirebaseConfig) (now : Int)
    (s : FireState) (tok : String)
    (htok : s.accessToken = some tok) (hne : tok ≠ "") (hexp : s.tokenExpiry > now) :
    (ref.delete net cfg now s).2.reqLog = s.reqLog ++ [deleteRequest cfg ref tok] := by
  unfold DocumentRef.delete
  rw [getAccessToken_hit net cfg now s tok htok hne hexp]
  dsimp only
  unfold fetch
  cases net s.reqLog.length <;> rfl

theorem query_log (col : String) (fs : List Filter) (lim : Option Int) (net : Net)
    (cfg : FirebaseConfig) (now : Int) (s : FireState) (tok : String)
    (htok : s.accessToken = some tok) (hne : tok ≠ "") (hexp : s.tokenExpiry > now) :
    ((QueryRef.mk col fs lim).get net cfg now s).2.reqLog
      = s.reqLog ++ [queryRequest cfg (mkStructuredQuery col fs lim) tok] := by
  unfold QueryRef.get
  rw [getAccessToken_hit net cfg now s tok htok hne hexp]
  dsimp only
  unfold fetch
  cases net s.reqLog.length with
  | success r =>
    obtain ⟨st, body⟩ := r
    cases body <;> rfl
  | netFail m => rfl

/-! ### Claim C1 (corrected): codec round trip below the 10^21 threshold -/

/-- C1 counterexample: `1e21` (written as its exact value) is a
supported native value — an integral number, so `Number.isInteger`
holds — yet the encoder emits `integerValue "1e+21"` (JS `String` uses
exponential notation from `10 ^ 21` on) and the decoder's `parseInt`
reads back only the leading digit run: the round trip returns `1`, a
value change, not the documented integer/double-subtype caveat. -/
theorem C1_counterexample :
    (NVal.vnum 1000000000000000000000).supported = true
  ∧ toFirestoreValue (.vnum 1000000000000000000000) = .integerValue "1e+21"
  ∧ parseFirestoreValue (toFirestoreValue (.vnum 1000000000000000000000)) = .vnum 1
  ∧ parseFirestoreValue (toFirestoreValue (.vnum 1000000000000000000000))
      ≠ .vnum 1000000000000000000000 := by
  refine ⟨rfl, by rfl, by rfl, ?_⟩
  intro hcontra
  rw [show parseFirestoreValue (toFirestoreValue (.vnum 1000000000000000000000)) = .vnum 1
    from by rfl] at hcontra
  have : (1 : ℚ) = 1000000000000000000000 := by injection hcontra
  exact absurd this (by decide)

/-- C1 amended: for every native value `v` built from the six supported
shapes all of whose integral numbers have magnitude below `10 ^ 21` (the
exponential-notation threshold of JS `String`), decoding the encoding
returns `v` exactly: `parseFirestoreValue (toFirestoreValue v) = v`.  JS
has a single number type, so within this domain the integer/double
caveat costs nothing; from `10 ^ 21` on the round trip fails outright
(see the counterexample). -/
theorem C1_amended_roundtrip (v : NVal) (h : v.supported = true)
    (hsafe : v.decimalSafe = true) :
    parseFirestoreValue (toFirestoreValue v) = v :=
  roundtrip_supported v h hsafe

/-- Witness for C1 at the spec's end-to-end example value. -/
theorem C1_amended_roundtrip_witness :
    (NVal.vmap [("amount", .vnum 42), ("currency", .vstr "USDT"),
        ("tags", .varr [.vstr "a", .vstr "b"])]).supported = true ∧
    (NVal.vmap [("amount", .vnum 42), ("currency", .vstr "USDT"),
        ("tags", .varr [.vstr "a", .vstr "b"])]).decimalSafe = true ∧
    parseFirestoreValue (toFirestoreValue (NVal.vmap [("amount", .vnum 42),
        ("currency", .vstr "USDT"), ("tags", .varr [.vstr "a", .vstr "b"])]))
      = NVal.vmap [("amount", .vnum 42), ("currency", .vstr "USDT"),
          ("tags", .varr [.vstr "a", .vstr "b"])] :=
  ⟨rfl, by decide, C1_amended_roundtrip _ rfl (by decide)⟩

/-! ### Claim C2 (corrected): encoding rules, with the real payload of
the integer tag -/

/-- C2 counterexample: the claim says an integral number's payload is
its decimal string, but at `1e21` the encoder emits the exponential
notation `"1e+21"`, which is not the decimal numeral of `10 ^ 21`. -/
theorem C2_counterexample :
    toFirestoreValue (.vnum 1000000000000000000000) = .integerValue "1e+21"
  ∧ "1e+21" ≠ natToDecString 1000000000000000000000 :=
  ⟨by rfl, by decide⟩

/-- C2 amended: `toFirestoreValue` follows the stated rule order and is
total: null and undefined to the null tag; strings to the string tag; a
number to the integer tag exactly when it has no fractional part,
carried as JS `String(value)` — the decimal numeral for magnitudes below
`10 ^ 21` (in particular `42` to `integerValue "42"`), ECMAScript
exponential notation from `10 ^ 21` on (`1e21` to `integerValue
"1e+21"`) — otherwise to the double tag; booleans to the boolean tag;
arrays to the array tag elementwise; plain objects to the nested-map tag
entrywise; any other value to the string tag via its string conversion.
The final conjunct checks the spec's end-to-end example document. -/
theorem C2_amended_encode_rules :
    toFirestoreValue .vnull = .nullValue
  ∧ toFirestoreValue .vundef = .nullValue
  ∧ (∀ s, toFirestoreValue (.vstr s) = .stringValue s)
  ∧ (∀ q : ℚ, (q.den = 1 → toFirestoreValue (.vnum q) = .integerValue (intToJsString q.num))
      ∧ (q.den ≠ 1 → toFirestoreValue (.vnum q) = .doubleValue q))
  ∧ (∀ n : Int, n.natAbs < 10 ^ 21 → intToJsString n = intToDecString n)
  ∧ intToJsString 1000000000000000000000 = "1e+21"
  ∧ (∀ b, toFirestoreValue (.vbool b) = .booleanValue b)
  ∧ (∀ xs, toFirestoreValue (.varr xs) = .arrayValue (some (xs.map toFirestoreValue)))
  ∧ (∀ m, toFirestoreValue (.vmap m)
      = .mapValue (some (m.map (fun kv => (kv.1, toFirestoreValue kv.2)))))
  ∧ (∀ s, toFirestoreValue (.vother s) = .stringValue s)
  ∧ toFirestoreValue (.vnum 42) = .integerValue "42"
  ∧ objectToDoc [("amount", .vnum 42), ("currency", .vstr "USDT"),
        ("tags", .varr [.vstr "a", .vstr "b"])]
      = [("amount", .integerValue "42"), ("currency", .stringValue "USDT"),
          ("tags", .arrayValue (some [.stringValue "a", .stringValue "b"]))] := by
  refine ⟨rfl, rfl, fun s => rfl, fun q => ⟨fun hq => ?_, fun hq => ?_⟩,
    fun n hn => intToJsString_small hn, by decide,
    fun b => rfl, fun xs => ?_, fun m => ?_, fun s => rfl, rfl, rfl⟩
  · simp [toFirestoreValue, hq]
  · simp [toFirestoreValue, hq]
  · simp [toFirestoreValue, toFirestoreValueList_eq_map]
  · simp [toFirestoreValue, toFirestoreValueEntries_eq_map]

/-- Witness for C2: both numeric branches exercised, at `42` (integral)
and `5/2` (fractional), and the decimal-payload regime at `42`. -/
theorem C2_amended_encode_rules_witness :
    ((42 : ℚ).den = 1 ∧ toFirestoreValue (.vnum 42) = .integerValue (intToJsString (42 : ℚ).num))
  ∧ ((mkRat 5 2).den ≠ 1 ∧ toFirestoreValue (.vnum (mkRat 5 2)) = .doubleValue (mkRat 5 2))
  ∧ ((42 : Int).natAbs < 10 ^ 21 ∧ intToJsString 42 = intToDecString 42) :=
  ⟨⟨by decide, (C2_amended_encode_rules.2.2.2.1 42).1 (by decide)⟩,
   ⟨by decide, (C2_amended_encode_rules.2.2.2.1 (mkRat 5 2)).2 (by decide)⟩,
   ⟨by decide, C2_amended_encode_rules.2.2.2.2.1 42 (by decide)⟩⟩

/-! ### Claim C10: FieldValue sentinels encode as literal maps -/

/-- C10: the `FieldValue.increment n` sentinel is a plain object, so the
encoder turns it into an ordinary `mapValue` with literal keys
`__fieldTransform` and `value` — a write that uses it stores that map as
the field's new value (no server-side transform is requested by the wire
body).  `FieldValue.serverTimestamp` is likewise stored as a literal
map.  The last conjunct shows the stored document body of such a write. -/
theorem C10_fieldTransform_literal_map :
    (∀ n : ℚ, toFirestoreValue (FieldValue.increment n)
      = .mapValue (some [("__fieldTransform", .stringValue "increment"),
          ("value", toFirestoreValue (.vnum n))]))
  ∧ toFirestoreValue FieldValue.serverTimestamp
      = .mapValue (some [("__fieldTransform", .stringValue "serverTimestamp")])
  ∧ (∀ n : ℚ, objectToDoc [("credits", FieldValue.increment n)]
      = [("credits", .mapValue (some [("__fieldTransform", .stringValue "increment"),
          ("value", toFirestoreValue (.vnum n))]))]) := by
  refine ⟨fun n => ?_, rfl, fun n => ?_⟩
  · simp [FieldValue.increment, toFirestoreValue, toFirestoreValueEntries]
  · simp [objectToDoc, toFirestoreValueEntries, FieldValue.increment, toFirestoreValue]

/-! ### Claim C3: get on 404 -/

/-- C3: for every collection and document id, when the store responds
with HTTP 404 to `get` (whatever the response body), the call resolves —
it does not throw — with a snapshot whose `exists` flag is false and
which carries no field mapping (its `data()` is null). -/
theorem C3_get_404_yields_missing (ref : DocumentRef) (net : Net) (cfg : FirebaseConfig)
    (now : Int) (s : FireState) (tok : String) (b : RespBody)
    (htok : s.accessToken = some tok) (hne : tok ≠ "") (hexp : s.tokenExpiry > now)
    (hresp : net s.reqLog.length = .success { status := 404, body := b }) :
    ref.get net cfg now s
      = (.ok { id := ref.id, fields := none },
         { s with reqLog := s.reqLog ++ [getRequest cfg ref tok] })
    ∧ (DocumentSnapshot.mk ref.id none).existsFlag = false
    ∧ (DocumentSnapshot.mk ref.id none).data = .vnull :=
  ⟨get_run_404 ref net cfg now s tok b htok hne hexp hresp, rfl, rfl⟩

/-- Witness for C3: a concrete 404 run against a store that answers 404. -/
theorem C3_get_404_yields_missing_witness :
    let cfg : FirebaseConfig :=
      { projectId := "demo", clientEmail := "sa@demo.iam", privateKey := "key" }
    let s : FireState := { accessToken := some "tok", tokenExpiry := 1000, reqLog := [] }
    let net : Net := fun _ => .success { status := 404, body := .empty }
    (DocumentRef.mk "users" "ghost").get net cfg 0 s
      = (.ok { id := "ghost", fields := none },
         { s with reqLog := [getRequest cfg (DocumentRef.mk "users" "ghost") "tok"] })
    ∧ (DocumentSnapshot.mk "ghost" none).existsFlag = false
    ∧ (DocumentSnapshot.mk "ghost" none).data = .vnull :=
  C3_get_404_yields_missing (DocumentRef.mk "users" "ghost")
    (fun _ => .success { status := 404, body := .empty })
    { projectId := "demo", clientEmail := "sa@demo.iam", privateKey := "key" }
    0 { accessToken := some "tok", tokenExpiry := 1000, reqLog := [] } "tok" .empty
    rfl (by decide) (by decide) rfl

/-! ### Claim C5: merge set sends an update mask, plain set does not -/

/-- C5: `set` issues one PATCH request; when `merge` is true its URL
carries `updateMask.fieldPaths` entries listing exactly the supplied
top-level field names in order, and when `merge` is false the URL is the
bare document URL — no field mask is sent, so the remote service
overwrites the whole document. -/
theorem C5_set_merge_mask (ref : DocumentRef) (net : Net) (cfg : FirebaseConfig)
    (now : Int) (obj : List (String × NVal)) (merge : Bool) (s : FireState)
    (tok : String) (r : HttpResponse)
    (htok : s.accessToken = some tok) (hne : tok ≠ "") (hexp : s.tokenExpiry > now)
    (hresp : net s.reqLog.length = .success r) :
    ref.set net cfg now obj merge s
      = (.ok (), { s with reqLog := s.reqLog ++ [setRequest cfg ref obj merge tok] })
    ∧ (setRequest cfg ref obj merge tok).url
        = (if merge then docUrl cfg ref.collection ref.id ++ "?" ++ updateMaskQS obj
           else docUrl cfg ref.collection ref.id)
    ∧ updateMaskQS obj
        = String.intercalate "&" (obj.map (fun kv => "updateMask.fieldPaths=" ++ kv.1)) :=
  ⟨set_run ref net cfg now obj merge s tok r htok hne hexp hresp, rfl, rfl⟩

/-- Witness for C5: both merge modes at a concrete two-field write. -/
theorem C5_set_merge_mask_witness :
    let cfg : FirebaseConfig :=
      { projectId := "demo", clientEmail := "sa@demo.iam", privateKey := "key" }
    let s : FireState := { accessToken := some "tok", tokenExpiry := 1000, reqLog := [] }
    let net : Net := fun _ => .success { status := 200, body := .empty }
    let ref : DocumentRef := DocumentRef.mk "users" "u1"
    let obj : List (String × NVal) := [("credits", .vnum 3), ("plan", .vstr "pro")]
    (ref.set net cfg 0 obj true s
        = (.ok (), { s with reqLog := [setRequest cfg ref obj true "tok"] })
      ∧ (setRequest cfg ref obj true "tok").url
          = (if true then docUrl cfg "users" "u1" ++ "?" ++ updateMaskQS obj
             else docUrl cfg "users" "u1")
      ∧ updateMaskQS obj
          = String.intercalate "&" (obj.map (fun kv => "updateMask.fieldPaths=" ++ kv.1)))
    ∧ (ref.set net cfg 0 obj false s
        = (.ok (), { s with reqLog := [setRequest cfg ref obj false "tok"] })
      ∧ (setRequest cfg ref obj false "tok").url
          = (if false then docUrl cfg "users" "u1" ++ "?" ++ updateMaskQS obj
             else docUrl cfg "users" "u1")
      ∧ updateMaskQS obj
          = String.intercalate "&" (obj.map (fun kv => "updateMask.fieldPaths=" ++ kv.1))) :=
  ⟨C5_set_merge_mask (DocumentRef.mk "users" "u1")
      (fun _ => .success { status := 200, body := .empty })
      { projectId := "demo", clientEmail := "sa@demo.iam", privateKey := "key" }
      0 [("credits", .vnum 3), ("plan", .vstr "pro")] true
      { accessToken := some "tok", tokenExpiry := 1000, reqLog := [] } "tok"
      { status := 200, body := .empty } rfl (by decide) (by decide) rfl,
   C5_set_merge_mask (DocumentRef.mk "users" "u1")
      (fun _ => .success { status := 200, body := .empty })
      { projectId := "demo", clientEmail := "sa@demo.iam", privateKey := "key" }
      0 [("credits", .vnum 3), ("plan", .vstr "pro")] false
      { accessToken := some "tok", tokenExpiry := 1000, reqLog := [] } "tok"
      { status := 200, body := .empty } rfl (by decide) (by decide) rfl⟩

/-! ### Claim C8: token caching -/

/-- C8: `getAccessToken` serves from the cache with no network request
for every call strictly before the cached expiry instant; a call at or
after that instant performs exactly one sign-and-exchange round trip (a
single request to the token endpoint) and caches the returned token with
expiry `now + (expires_in - 60) * 1000` milliseconds, i.e. sixty seconds
before the returned lifetime ends; and after such an exchange every call
before the new expiry instant returns the same token string with no
further request and no state change. -/
theorem C8_token_cache (net : Net) (cfg : FirebaseConfig) :
    (∀ s now tok, s.accessToken = some tok → tok ≠ "" → s.tokenExpiry > now →
      getAccessToken net cfg now s = (.ok tok, s))
  ∧ (∀ s now tok ei ed st, s.tokenExpiry ≤ now →
      net s.reqLog.length = .success { status := st, body := .token tok ei ed } →
      200 ≤ st → st < 300 →
      getAccessToken net cfg now s
        = (.ok tok,
            { s with
                accessToken := some tok
                tokenExpiry := now + (ei - 60) * 1000
                reqLog := s.reqLog ++ [tokenRequest cfg now] }))
  ∧ (∀ s now tok ei ed st, s.tokenExpiry ≤ now →
      net s.reqLog.length = .success { status := st, body := .token tok ei ed } →
      200 ≤ st → st < 300 → tok ≠ "" →
      ∀ net2 now2, now2 < now + (ei - 60) * 1000 →
        getAccessToken net2 cfg now2 (getAccessToken net cfg now s).2
          = (.ok tok, (getAccessToken net cfg now s).2)) := by
  have hmiss : ∀ s now tok ei ed st, s.tokenExpiry ≤ now →
      net s.reqLog.length = .success { status := st, body := .token tok ei ed } →
      200 ≤ st → st < 300 →
      getAccessToken net cfg now s
        = (.ok tok,
            { s with
                accessToken := some tok
                tokenExpiry := now + (ei - 60) * 1000
                reqLog := s.reqLog ++ [tokenRequest cfg now] }) := by
    intro s now tok ei ed st hle hresp h1 h2
    unfold getAccessToken
    rw [if_neg (by omega : ¬(s.accessToken.getD "" ≠ "" ∧ s.tokenExpiry > now))]
    unfold fetch
    rw [hresp]
    dsimp only
    have hok : HttpResponse.respOk { status := st, body := .token tok ei ed } = true := by
      simp [HttpResponse.respOk, h1, h2]
    rw [if_pos hok]
  refine ⟨fun s now tok htok hne hexp => getAccessToken_hit net cfg now s tok htok hne hexp,
    hmiss, ?_⟩
  intro s now tok ei ed st hle hresp h1 h2 hne net2 now2 hlt
  rw [hmiss s now tok ei ed st hle hresp h1 h2]
  exact getAccessToken_hit net2 cfg now2 _ tok rfl hne (by simpa using hlt)

/-- Witness for C8: a concrete exchange at time 0 with a one-hour
lifetime, followed by a cached call at the last pre-expiry millisecond. -/
theorem C8_token_cache_witness :
    let cfg : FirebaseConfig :=
      { projectId := "demo", clientEmail := "sa@demo.iam", privateKey := "key" }
    let s : FireState := { accessToken := none, tokenExpiry := 0, reqLog := [] }
    let net : Net := fun _ => .success { status := 200, body := .token "fresh" 3600 none }
    (getAccessToken net cfg 0 s
        = (.ok "fresh",
            { s with
                accessToken := some "fresh"
                tokenExpiry := (3600 - 60) * 1000
                reqLog := [tokenRequest cfg 0] }))
    ∧ (getAccessToken net cfg (3540 * 1000 - 1) (getAccessToken net cfg 0 s).2
        = (.ok "fresh", (getAccessToken net cfg 0 s).2)) := by
  refine ⟨?_, ?_⟩
  · have := (C8_token_cache (fun _ => .success { status := 200, body := .token "fresh" 3600 none })
      { projectId := "demo", clientEmail := "sa@demo.iam", privateKey := "key" }).2.1
      { accessToken := none, tokenExpiry := 0, reqLog := [] } 0 "fresh" 3600 none 200
      (by decide) rfl (by decide) (by decide)
    simpa using this
  · have := (C8_token_cache (fun _ => .success { status := 200, body := .token "fresh" 3600 none })
      { projectId := "demo", clientEmail := "sa@demo.iam", privateKey := "key" }).2.2
      { accessToken := none, tokenExpiry := 0, reqLog := [] } 0 "fresh" 3600 none 200
      (by decide) rfl (by decide) (by decide) (by decide)
      (fun _ => .success { status := 200, body := .token "fresh" 3600 none })
      (3540 * 1000 - 1) (by decide)
    simpa using this

/-! ### Claim C4 (corrected): non-2xx store responses are silently ignored -/

/-- C4 counterexample: the store answers `update` with HTTP 404 — the
situation of updating a missing document — yet the call resolves
successfully with the response never inspected: no StoreError and no
NotFoundError is raised, contradicting the claim that the failure
propagates. -/
theorem C4_counterexample :
    let cfg : FirebaseConfig :=
      { projectId := "demo", clientEmail := "sa@demo.iam", privateKey := "key" }
    let s : FireState := { accessToken := some "tok", tokenExpiry := 1000, reqLog := [] }
    let net : Net := fun _ => .success { status := 404, body := .empty }
    (DocumentRef.mk "users" "missing").update net cfg 0 [("credits", .vnum 1)] s
      = (.ok (),
         { s with reqLog :=
            [updateRequest cfg (DocumentRef.mk "users" "missing") [("credits", .vnum 1)] "tok"] }) :=
  update_run (DocumentRef.mk "users" "missing")
    (fun _ => .success { status := 404, body := .empty })
    { projectId := "demo", clientEmail := "sa@demo.iam", privateKey := "key" }
    0 [("credits", .vnum 1)]
    { accessToken := some "tok", tokenExpiry := 1000, reqLog := [] } "tok"
    { status := 404, body := .empty } rfl (by decide) (by decide) rfl

/-- C4 amended: `set`, `update` and `delete` never inspect the HTTP
response — every response, success or not (in particular the 404 the
store returns for `update` on a missing document), leaves the operation
resolving successfully, the error silently swallowed; and `get` on a
non-404 status does not throw either, it resolves with a snapshot built
from whatever `fields` the body carries (none on an error body). -/
theorem C4_amended_status_ignored (ref : DocumentRef) (net : Net) (cfg : FirebaseConfig)
    (now : Int) (obj : List (String × NVal)) (merge : Bool) (s : FireState)
    (tok : String) (r : HttpResponse)
    (htok : s.accessToken = some tok) (hne : tok ≠ "") (hexp : s.tokenExpiry > now)
    (hresp : net s.reqLog.length = .success r) :
    (ref.update net cfg now obj s).1 = .ok ()
  ∧ (ref.set net cfg now obj merge s).1 = .ok ()
  ∧ (ref.delete net cfg now s).1 = .ok ()
  ∧ (r.status ≠ 404 → (ref.get net cfg now s).1
      = .ok { id := ref.id
              fields := match r.body with | .doc _ fields => fields | _ => none }) := by
  refine ⟨?_, ?_, ?_, fun hst => ?_⟩
  · rw [update_run ref net cfg now obj s tok r htok hne hexp hresp]
  · rw [set_run ref net cfg now obj merge s tok r htok hne hexp hresp]
  · rw [delete_run ref net cfg now s tok r htok hne hexp hresp]
  · rw [get_run_other ref net cfg now s tok r htok hne hexp hresp hst]

/-- Witness for C4 amended: a concrete 500 response, swallowed by all
three write operations and answered by `get` without an exception. -/
theorem C4_amended_status_ignored_witness :
    let cfg : FirebaseConfig :=
      { projectId := "demo", clientEmail := "sa@demo.iam", privateKey := "key" }
    let s : FireState := { accessToken := some "tok", tokenExpiry := 1000, reqLog := [] }
    let net : Net := fun _ => .success { status := 500, body := .empty }
    let ref : DocumentRef := DocumentRef.mk "users" "u1"
    (ref.update net cfg 0 [("a", .vnull)] s).1 = .ok ()
  ∧ (ref.set net cfg 0 [("a", .vnull)] true s).1 = .ok ()
  ∧ (ref.delete net cfg 0 s).1 = .ok ()
  ∧ (ref.get net cfg 0 s).1 = .ok { id := "u1", fields := none } := by
  have h := C4_amended_status_ignored (DocumentRef.mk "users" "u1")
    (fun _ => .success { status := 500, body := .empty })
    { projectId := "demo", clientEmail := "sa@demo.iam", privateKey := "key" }
    0 [("a", .vnull)] true
    { accessToken := some "tok", tokenExpiry := 1000, reqLog := [] } "tok"
    { status := 500, body := .empty } rfl (by decide) (by decide) rfl
  exact ⟨h.1, h.2.1, h.2.2.1, h.2.2.2 (by decide)⟩

/-! ### Claim C9 (corrected): bearer header yes, 401 retry no -/

/-- C9 counterexample: the store answers `update` with HTTP 401, yet the
complete run issues exactly one request — the original PATCH — and
resolves successfully: there is no re-authentication retry, no token
refresh (the cache is untouched) and no failure, contradicting the
claimed retry-then-fail behaviour. -/
theorem C9_counterexample :
    let cfg : FirebaseConfig :=
      { projectId := "demo", clientEmail := "sa@demo.iam", privateKey := "key" }
    let s : FireState := { accessToken := some "tok", tokenExpiry := 1000, reqLog := [] }
    let net : Net := fun _ => .success { status := 401, body := .empty }
    (DocumentRef.mk "users" "u1").update net cfg 0 [("a", .vnull)] s
      = (.ok (),
         { s with reqLog :=
            [updateRequest cfg (DocumentRef.mk "users" "u1") [("a", .vnull)] "tok"] }) :=
  update_run (DocumentRef.mk "users" "u1")
    (fun _ => .success { status := 401, body := .empty })
    { projectId := "demo", clientEmail := "sa@demo.iam", privateKey := "key" }
    0 [("a", .vnull)]
    { accessToken := some "tok", tokenExpiry := 1000, reqLog := [] } "tok"
    { status := 401, body := .empty } rfl (by decide) (by decide) rfl

/-- C9 amended: every document operation attaches an
`Authorization: Bearer <token>` header with the token obtained from
`getAccessToken`; but no 401 handling exists — under a cached token each
operation issues exactly one HTTP request whatever the environment
answers (a 401 included), so no re-authentication retry ever occurs. -/
theorem C9_amended_bearer_no_retry (ref : DocumentRef) (cfg : FirebaseConfig) (now : Int)
    (obj : List (String × NVal)) (merge : Bool) (s : FireState) (tok : String)
    (htok : s.accessToken = some tok) (hne : tok ≠ "") (hexp : s.tokenExpiry > now) :
    ((getRequest cfg ref tok).authorization = some ("Bearer " ++ tok)
      ∧ (setRequest cfg ref obj merge tok).authorization = some ("Bearer " ++ tok)
      ∧ (updateRequest cfg ref obj tok).authorization = some ("Bearer " ++ tok)
      ∧ (deleteRequest cfg ref tok).authorization = some ("Bearer " ++ tok))
  ∧ (∀ net, (ref.get net cfg now s).2.reqLog = s.reqLog ++ [getRequest cfg ref tok])
  ∧ (∀ net, (ref.set net cfg now obj merge s).2.reqLog
      = s.reqLog ++ [setRequest cfg ref obj merge tok])
  ∧ (∀ net, (ref.update net cfg now obj s).2.reqLog
      = s.reqLog ++ [updateRequest cfg ref obj tok])
  ∧ (∀ net, (ref.delete net cfg now s).2.reqLog = s.reqLog ++ [deleteRequest cfg ref tok]) :=
  ⟨⟨rfl, rfl, rfl, rfl⟩,
   fun net => get_log ref net cfg now s tok htok hne hexp,
   fun net => set_log ref net cfg now obj merge s tok htok hne hexp,
   fun net => update_log ref net cfg now obj s tok htok hne hexp,
   fun net => delete_log ref net cfg now s tok htok hne hexp⟩

/-- Witness for C9 amended: concrete operations against an environment
that always answers 401 still issue exactly one request each. -/
theorem C9_amended_bearer_no_retry_witness :
    let cfg : FirebaseConfig :=
      { projectId := "demo", clientEmail := "sa@demo.iam", privateKey := "key" }
    let s : FireState := { accessToken := some "tok", tokenExpiry := 1000, reqLog := [] }
    let net : Net := fun _ => .success { status := 401, body := .empty }
    let ref : DocumentRef := DocumentRef.mk "users" "u1"
    (getRequest cfg ref "tok").authorization = some ("Bearer " ++ "tok")
  ∧ (ref.update net cfg 0 [("a", .vnull)] s).2.reqLog
      = [updateRequest cfg ref [("a", .vnull)] "tok"] := by
  have h := C9_amended_bearer_no_retry (DocumentRef.mk "users" "u1")
    { projectId := "demo", clientEmail := "sa@demo.iam", privateKey := "key" }
    0 [("a", .vnull)] true
    { accessToken := some "tok", tokenExpiry := 1000, reqLog := [] } "tok"
    rfl (by decide) (by decide)
  exact ⟨h.1.1, h.2.2.2.1 (fun _ => .success { status := 401, body := .empty })⟩

/-! ### Claim C6: conditional where-clause shape -/

/-- C6: the structured query an executed query sends has a `where`
clause that is a bare `fieldFilter` node when exactly one filter has
been accumulated, and a `compositeFilter` node with op `AND` holding one
`fieldFilter` node per accumulated filter, in accumulation order, when
two or more have been; the final conjunct shows that the executed
query's single POST carries exactly `mkStructuredQuery` as its wire
body. -/
theorem C6_where_clause_shape (col : String) (fs : List Filter) (lim : Option Int) :
    (∀ f, fs = [f] → (mkStructuredQuery col fs lim).whereClause = some (filterToNode f))
  ∧ (2 ≤ fs.length → (mkStructuredQuery col fs lim).whereClause
      = some (.compositeFilter "AND" (fs.map filterToNode)))
  ∧ (∀ net cfg now s tok, s.accessToken = some tok → tok ≠ "" → s.tokenExpiry > now →
      ((QueryRef.mk col fs lim).get net cfg now s).2.reqLog
        = s.reqLog ++ [queryRequest cfg (mkStructuredQuery col fs lim) tok]) := by
  refine ⟨fun f hf => ?_, fun hlen => ?_, fun net cfg now s tok htok hne hexp =>
    query_log col fs lim net cfg now s tok htok hne hexp⟩
  · subst hf
    rfl
  · match fs, hlen with
    | f :: g :: rest, _ =>
      simp [mkStructuredQuery, buildWhere]

/-- Witness for C6: the bare shape at one filter, the composite-AND
shape at two, and the request-body conjunct at a concrete run. -/
theorem C6_where_clause_shape_witness :
    let f1 : Filter := { field := "status", op := "==", value := .vstr "pending" }
    let f2 : Filter := { field := "amount", op := ">=", value := .vnum 10 }
    let cfg : FirebaseConfig :=
      { projectId := "demo", clientEmail := "sa@demo.iam", privateKey := "key" }
    let s : FireState := { accessToken := some "tok", tokenExpiry := 1000, reqLog := [] }
    let net : Net := fun _ => .success { status := 200, body := .queryResults [] }
    (mkStructuredQuery "payments" [f1] none).whereClause = some (filterToNode f1)
  ∧ (mkStructuredQuery "payments" [f1, f2] none).whereClause
      = some (.compositeFilter "AND" [filterToNode f1, filterToNode f2])
  ∧ ((QueryRef.mk "payments" [f1, f2] none).get net cfg 0 s).2.reqLog
      = [queryRequest cfg (mkStructuredQuery "payments" [f1, f2] none) "tok"] := by
  refine ⟨(C6_where_clause_shape "payments"
      [{ field := "status", op := "==", value := .vstr "pending" }] none).1 _ rfl, ?_, ?_⟩
  · exact (C6_where_clause_shape "payments"
      [{ field := "status", op := "==", value := .vstr "pending" },
       { field := "amount", op := ">=", value := .vnum 10 }] none).2.1 (by decide)
  · exact (C6_where_clause_shape "payments"
      [{ field := "status", op := "==", value := .vstr "pending" },
       { field := "amount", op := ">=", value := .vnum 10 }] none).2.2
      (fun _ => .success { status := 200, body := .queryResults [] })
      { projectId := "demo", clientEmail := "sa@demo.iam", privateKey := "key" }
      0 { accessToken := some "tok", tokenExpiry := 1000, reqLog := [] } "tok"
      rfl (by decide) (by decide)

/-! ### Claim C7: sequential commit, abort at first failure, no rollback -/

/-- C7: `commit` replays the recorded operations sequentially in enqueue
order — committing a concatenation runs the first block and, only if it
fully succeeded, continues with the second from the reached state — and
when a commit fails there is an index `k` such that the first `k`
operations were applied (their replay succeeded, their effects — issued
requests — are in the reached state), operation `k` failed, its error is
the one surfaced, and the final state is exactly the state at that
failure: operations after `k` were never attempted and nothing was
rolled back. -/
theorem C7_commit_sequential_abort (net : Net) (cfg : FirebaseConfig) (now : Int) :
    (∀ ops1 ops2 s, TransactionBatch.commit net cfg now (ops1 ++ ops2) s
        = (match TransactionBatch.commit net cfg now ops1 s with
           | (.ok _, s1) => TransactionBatch.commit net cfg now ops2 s1
           | (.error e, s1) => (.error e, s1)))
  ∧ (∀ ops s e s2, TransactionBatch.commit net cfg now ops s = (.error e, s2) →
      ∃ k, ∃ hk : k < ops.length, ∃ sk,
        TransactionBatch.commit net cfg now (ops.take k) s = (.ok (), sk)
        ∧ applyOp net cfg now (ops.get ⟨k, hk⟩) sk = (.error e, s2)) := by
  constructor
  · intro ops1
    induction ops1 with
    | nil => intro ops2 s; rfl
    | cons op ops1 ih =>
      intro ops2 s
      show (match applyOp net cfg now op s with
            | (.ok _, s1) => TransactionBatch.commit net cfg now (ops1 ++ ops2) s1
            | (.error e, s1) => (.error e, s1)) = _
      rcases happ : applyOp net cfg now op s with ⟨res, s1⟩
      cases res with
      | ok a =>
        show TransactionBatch.commit net cfg now (ops1 ++ ops2) s1 = _
        rw [ih ops2 s1]
        show _ = (match (match applyOp net cfg now op s with
              | (.ok _, s1) => TransactionBatch.commit net cfg now ops1 s1
              | (.error e, s1) => (.error e, s1)) with
            | (.ok _, s1) => TransactionBatch.commit net cfg now ops2 s1
            | (.error e, s1) => (.error e, s1))
        rw [happ]
      | error e =>
        show (Except.error e, s1) = _
        show _ = (match (match applyOp net cfg now op s with
              | (.ok _, s1) => TransactionBatch.commit net cfg now ops1 s1
              | (.error e, s1) => (.error e, s1)) with
            | (.ok _, s1) => TransactionBatch.commit net cfg now ops2 s1
            | (.error e, s1) => (.error e, s1))
        rw [happ]
  · intro ops
    induction ops with
    | nil =>
      intro s e s2 h
      exact absurd (congrArg Prod.fst h) (by simp [TransactionBatch.commit])
    | cons op rest ih =>
      intro s e s2 h
      rw [show TransactionBatch.commit net cfg now (op :: rest) s
          = (match applyOp net cfg now op s with
             | (.ok _, s1) => TransactionBatch.commit net cfg now rest s1
             | (.error e, s1) => (.error e, s1)) from rfl] at h
      rcases happ : applyOp net cfg now op s with ⟨res, s1⟩
      rw [happ] at h
      cases res with
      | error e1 =>
        refine ⟨0, by simp, s, rfl, ?_⟩
        simp only at h
        obtain ⟨h1, h2⟩ := Prod.mk.injEq .. ▸ h
        show applyOp net cfg now op s = (Except.error e, s2)
        rw [happ, show e1 = e from by injection h1, h2]
      | ok a =>
        simp only at h
        obtain ⟨k, hk, sk, hpre, hfail⟩ := ih s1 e s2 h
        refine ⟨k + 1, by simpa using Nat.succ_lt_succ hk, sk, ?_, ?_⟩
        · show (match applyOp net cfg now op s with
              | (.ok _, s1) => TransactionBatch.commit net cfg now (rest.take k) s1
              | (.error e, s1) => (.error e, s1)) = _
          rw [happ]
          exact hpre
        · exact hfail

/-- Witness for C7: a three-operation batch whose second operation hits
a network failure — the first operation's request is issued and kept,
the third is never issued, the second's rejection is the surfaced
error. -/
theorem C7_commit_sequential_abort_witness :
    let cfg : FirebaseConfig :=
      { projectId := "demo", clientEmail := "sa@demo.iam", privateKey := "key" }
    let s : FireState := { accessToken := some "tok", tokenExpiry := 1000, reqLog := [] }
    let net : Net := fun n =>
      if n = 1 then .netFail "boom" else .success { status := 200, body := .empty }
    let ops : List TxOp :=
      [.updateOp (DocumentRef.mk "users" "a") [("x", .vnull)],
       .updateOp (DocumentRef.mk "users" "b") [("y", .vnull)],
       .updateOp (DocumentRef.mk "users" "c") [("z", .vnull)]]
    let s2 : FireState :=
      { s with reqLog :=
          [updateRequest cfg (DocumentRef.mk "users" "a") [("x", .vnull)] "tok",
           updateRequest cfg (DocumentRef.mk "users" "b") [("y", .vnull)] "tok"] }
    TransactionBatch.commit net cfg 0 ops s = (.error (.fetchFailed "boom"), s2)
  ∧ (∃ k, ∃ hk : k < ops.length, ∃ sk,
      TransactionBatch.commit net cfg 0 (ops.take k) s = (.ok (), sk)
      ∧ applyOp net cfg 0 (ops.get ⟨k, hk⟩) sk = (.error (.fetchFailed "boom"), s2)) := by
  refine ⟨rfl, (C7_commit_sequential_abort _ _ 0).2 _ _ _ _ rfl⟩

end FirebaseRest
